import Mathlib

/-!
Verification of the tsm interactive list engine against its specification.

The definitions below are a shallow embedding of the Go sources:
  - `internal/ui/scrolllist.go`  (generic scrollable filtered list)
  - `internal/model/model.go`    (mode state machine, hierarchy flattener)

Go strings are modelled as `List Char` (the claims only involve ASCII data,
where Go's `strings.ToLower` agrees with `Char.toLower`).  Go `int` is
modelled as `Int`.  External collaborator calls (tmux, github) are modelled
by passing their results as explicit oracle arguments and by returning the
command that would be issued as an explicit value.
-/

set_option linter.unusedVariables false

/-- Go strings, as lists of characters. -/
abbrev GoStr := List Char

/-- Go `strings.ToLower` (ASCII range). -/
def goToLower (s : GoStr) : GoStr := s.map Char.toLower

/-- Helper for Go `strings.Contains`: does `s` start with `p`? -/
def startsWith : GoStr → GoStr → Bool
  | _, [] => true
  | [], _ :: _ => false
  | c :: s, p :: ps => (c == p) && startsWith s ps

/-- Go `strings.Contains s sub`: some suffix of `s` starts with `sub`. -/
def hasSubstr : GoStr → GoStr → Bool
  | [], sub => startsWith [] sub
  | s@(_ :: t), sub => startsWith s sub || hasSubstr t sub

/-- `internal/model/model.go` line 1237, `fuzzyMatch(text, pattern)`:
lowercases `text` only, then does a substring check with `pattern` as given. -/
def fuzzyMatch (text pattern : GoStr) : Bool :=
  hasSubstr (goToLower text) pattern

/-- The §4.1 contract stated literally ("case-folds both operands; returns
true iff needle is a contiguous substring of haystack"), for comparison
with the source's `fuzzyMatch`. -/
def specMatches (haystack needle : GoStr) : Bool :=
  hasSubstr (goToLower haystack) (goToLower needle)

/-- `internal/model/model.go` line 1266, `sanitizeSessionName`: the
`strings.NewReplacer` with the four single-character rules acts
character-wise. -/
def sanitizeSessionName (name : GoStr) : GoStr :=
  name.map fun c =>
    if c == '/' || c == '.' || c == ':' || c == ' ' then '-' else c

/-! ## ScrollList (`internal/ui/scrolllist.go`) -/

namespace ui

/-- `ScrollList[T]` from `internal/ui/scrolllist.go` lines 7-15. -/
structure ScrollList (α : Type) where
  items : List α
  filtered : List α
  cursor : Int
  scrollOffset : Int
  filter : GoStr
  filterFn : α → GoStr → Bool
  height : Int

/-- `NewScrollList` (lines 19-24): zero values plus the default height 10. -/
def NewScrollList {α : Type} (filterFn : α → GoStr → Bool) : ScrollList α :=
  { items := [], filtered := [], cursor := 0, scrollOffset := 0,
    filter := [], filterFn := filterFn, height := 10 }

namespace ScrollList

variable {α : Type}

/-- The two sequential conditional assignments of `clampCursor`
(lines 108-115), on the cursor value `c` with `n = len(filtered)`. -/
def clampCursorVal (c n : Int) : Int :=
  let c1 := if c ≥ n then n - 1 else c
  if c1 < 0 then 0 else c1

/-- `clampCursor` (lines 108-115). -/
def clampCursor (s : ScrollList α) : ScrollList α :=
  { s with cursor := clampCursorVal s.cursor s.filtered.length }

/-- The three sequential conditional assignments of `updateScrollOffset`
(lines 123-136), on cursor `c`, current offset `off` and height `h`. -/
def updateScrollOffsetVal (c off h : Int) : Int :=
  let o1 := if c < off then c else off
  let o2 := if c ≥ o1 + h then c - h + 1 else o1
  if o2 < 0 then 0 else o2

/-- `updateScrollOffset` (lines 123-136). -/
def updateScrollOffset (s : ScrollList α) : ScrollList α :=
  { s with scrollOffset := updateScrollOffsetVal s.cursor s.scrollOffset s.height }

/-- `applyFilter` (lines 57-71): re-derive `filtered`, then clamp cursor and
scroll offset.  The filter string is lowercased before being handed to the
filter function. -/
def applyFilter (s : ScrollList α) : ScrollList α :=
  let filtered :=
    if s.filter = [] then s.items
    else s.items.filter fun it => s.filterFn it (goToLower s.filter)
  updateScrollOffset (clampCursor { s with filtered := filtered })

/-- `SetItems` (lines 27-30). -/
def SetItems (s : ScrollList α) (items : List α) : ScrollList α :=
  applyFilter { s with items := items }

/-- `SetHeight` (lines 33-38): only positive heights are accepted. -/
def SetHeight (s : ScrollList α) (h : Int) : ScrollList α :=
  updateScrollOffset (if h > 0 then { s with height := h } else s)

/-- `SetFilter` (lines 46-49). -/
def SetFilter (s : ScrollList α) (f : GoStr) : ScrollList α :=
  applyFilter { s with filter := f }

/-- `SetCursor` (lines 94-98). -/
def SetCursor (s : ScrollList α) (pos : Int) : ScrollList α :=
  updateScrollOffset (clampCursor { s with cursor := pos })

/-- `MoveCursor` (lines 101-105). -/
def MoveCursor (s : ScrollList α) (delta : Int) : ScrollList α :=
  updateScrollOffset (clampCursor { s with cursor := s.cursor + delta })

/-- `Reset` (lines 180-185). -/
def Reset (s : ScrollList α) : ScrollList α :=
  applyFilter { s with filter := [], cursor := 0, scrollOffset := 0 }

end ScrollList

/-- States reachable from a fresh `NewScrollList` by the public mutators. -/
inductive Reach {α : Type} (fn : α → GoStr → Bool) : ScrollList α → Prop
  | new : Reach fn (NewScrollList fn)
  | setItems {s : ScrollList α} (l : List α) :
      Reach fn s → Reach fn (s.SetItems l)
  | setFilter {s : ScrollList α} (f : GoStr) :
      Reach fn s → Reach fn (s.SetFilter f)
  | setHeight {s : ScrollList α} (h : Int) :
      Reach fn s → Reach fn (s.SetHeight h)
  | setCursor {s : ScrollList α} (p : Int) :
      Reach fn s → Reach fn (s.SetCursor p)
  | moveCursor {s : ScrollList α} (d : Int) :
      Reach fn s → Reach fn (s.MoveCursor d)
  | reset {s : ScrollList α} :
      Reach fn s → Reach fn s.Reset

/-- §3 cursor invariant: in `[0, len(filtered))` when non-empty, else 0. -/
def CursorInv {α : Type} (s : ScrollList α) : Prop :=
  (s.filtered = [] → s.cursor = 0) ∧
  (s.filtered ≠ [] → 0 ≤ s.cursor ∧ s.cursor < (s.filtered.length : Int))

/-- §3 visibility invariant plus non-negative offset. -/
def WindowInv {α : Type} (s : ScrollList α) : Prop :=
  s.scrollOffset ≤ s.cursor ∧ s.cursor < s.scrollOffset + s.height ∧
  0 ≤ s.scrollOffset

/-- §3 scroll-offset upper bound `scrollOffset <= max(0, len(filtered) - height)`. -/
def OffsetUpperInv {α : Type} (s : ScrollList α) : Prop :=
  s.scrollOffset ≤ max 0 ((s.filtered.length : Int) - s.height)

/-- The invariants that are actually maintained, plus height positivity. -/
def FullInv {α : Type} (s : ScrollList α) : Prop :=
  0 < s.height ∧ CursorInv s ∧ WindowInv s

end ui

/-- Filter function used for the concrete `ScrollList Nat` instances below
(it accepts everything; the scenarios never set a filter). -/
def natFilterFn : Nat → GoStr → Bool := fun _ _ => true

/-- A fresh list with height 5 holding 12 items (the §8 scenario). -/
def twelveFive : ui.ScrollList Nat :=
  ((ui.NewScrollList natFilterFn).SetHeight 5).SetItems (List.range 12)

/-- The §8 scenario state after moving the cursor to index 11 and then a
shrink of the item set to 8 items. -/
def shrunkAfterScroll : ui.ScrollList Nat :=
  ((twelveFive.SetCursor 11).SetItems (List.range 8))

/-! ## The mode state machine (`internal/model/model.go`)

External collaborator calls (tmux) appear as oracle arguments (the result a
call returned) and as returned command values (the call the handler would
issue).  Fields of `Model` that none of the claims touch and that hold
opaque collaborator data (status maps, the text input widget, the config,
column widths, the directory-picker state) are omitted from the embedding;
the handlers below mutate none of the modelled fields through them. -/

namespace model

/-- `tmux.Window` (`internal/tmux/tmux.go` lines 21-24). -/
structure Window where
  index : Int
  name : GoStr
deriving DecidableEq

/-- `tmux.Session` (`internal/tmux/tmux.go` lines 13-18); the
`LastActivity` timestamp is opaque collaborator data and is omitted. -/
structure Session where
  name : GoStr
  expanded : Bool
  windows : List Window
deriving DecidableEq

/-- `Mode` (`internal/model/model.go` lines 24-34). -/
inductive Mode where
  | normal
  | confirmKill
  | create
  | pickDirectory
  | confirmRemoveFolder
  | cloneRepo
deriving DecidableEq

/-- `Item` (lines 36-41). -/
structure Item where
  isSession : Bool
  sessionIndex : Nat
  windowIndex : Nat
deriving DecidableEq

/-- The modelled fields of `Model` (lines 43-93). -/
structure Model where
  sessions : List Session
  cursor : Int
  items : List Item
  mode : Mode
  message : GoStr
  messageIsError : Bool
  killTarget : GoStr
  filter : GoStr
  scrollOffset : Int
  width : Int
  height : Int
  cloneRepos : List GoStr
  cloneReposAll : List GoStr
  cloneFilter : GoStr
  cloneCursor : Int
  cloneScrollOffset : Int
  cloneLoading : Bool
  cloneError : GoStr
  cloneCloning : Bool
  cloneSuccess : Bool
  cloneSuccessPath : GoStr
  cloneSuccessSession : GoStr
deriving DecidableEq

/-- `New` (lines 96-105): Go zero values for every modelled field. -/
def New : Model :=
  { sessions := [], cursor := 0, items := [], mode := Mode.normal,
    message := [], messageIsError := false, killTarget := [], filter := [],
    scrollOffset := 0, width := 0, height := 0,
    cloneRepos := [], cloneReposAll := [], cloneFilter := [],
    cloneCursor := 0, cloneScrollOffset := 0, cloneLoading := false,
    cloneError := [], cloneCloning := false, cloneSuccess := false,
    cloneSuccessPath := [], cloneSuccessSession := [] }

/-- Go slice indexing `m.sessions[i]` (in-bounds in all reachable uses). -/
def sget (l : List Session) (i : Nat) : Session := l.getD i ⟨[], false, []⟩

/-- Go slice indexing into a window slice. -/
def wget (l : List Window) (i : Nat) : Window := l.getD i ⟨0, []⟩

/-- Go slice indexing `m.items[i]`. -/
def iget (l : List Item) (i : Nat) : Item := l.getD i ⟨true, 0, 0⟩

/-- Go `fmt.Sprintf("%d", n)` (via `strconv`). -/
def intToStr (n : Int) : GoStr := (toString n).data

/-- `isCursorValid` (lines 1243-1245). -/
def isCursorValid (m : Model) : Bool :=
  decide (0 ≤ m.cursor ∧ m.cursor < (m.items.length : Int))

/-- `contentHeight` (lines 1177-1182), with `ui.AppBorderOverheadY = 2`. -/
def contentHeight (m : Model) : Int :=
  if m.height > 0 then m.height - 2 else 0

/-- `sessionMaxVisibleItems` (lines 1189-1202). -/
def sessionMaxVisibleItems (m : Model) : Int :=
  if contentHeight m > 0 then
    (if contentHeight m - 7 > 0 then contentHeight m - 7 else 10)
  else 10

/-- `updateScrollOffset` on the model (lines 1151-1166): the same three
conditional assignments as in scrolllist.go, with
`maxVisible = sessionMaxVisibleItems`. -/
def updateScrollOffset (m : Model) : Model :=
  { m with scrollOffset :=
      (ui.ScrollList.updateScrollOffsetVal m.cursor m.scrollOffset
        (sessionMaxVisibleItems m)) }

/-- The flattening loop of `rebuildItems` (lines 1119-1139), carrying the
running session index `i`. -/
def buildItemsAux (filterLower : GoStr) (useFilter : Bool) :
    List Session → Nat → List Item
  | [], _ => []
  | s :: rest, i =>
    let tail := buildItemsAux filterLower useFilter rest (i + 1)
    if useFilter && !fuzzyMatch s.name filterLower then tail
    else
      Item.mk true i 0 ::
        ((if s.expanded then
            (List.range s.windows.length).map fun j => Item.mk false i j
          else []) ++ tail)

/-- The flattened item sequence produced by `rebuildItems` (lines 1115-1139):
the filter guard is `m.filter != "" && !fuzzyMatch(name, strings.ToLower(filter))`. -/
def buildItems (sessions : List Session) (filt : GoStr) : List Item :=
  buildItemsAux (goToLower filt) (!filt.isEmpty) sessions 0

/-- `rebuildItems` (lines 1115-1149): flatten, clamp the cursor by index
(the same two conditional assignments as scrolllist.go's `clampCursor`),
then update the scroll offset. -/
def rebuildItems (m : Model) : Model :=
  let items := buildItems m.sessions m.filter
  updateScrollOffset
    { m with items := items,
             cursor := ui.ScrollList.clampCursorVal m.cursor items.length }

/-- The `sessionsMsg` case of `Update` (lines 164-173).  The status and
column-width loads touch only fields outside this embedding. -/
def updateSessionsMsg (m : Model) (sessions : List Session) : Model :=
  let m1 := rebuildItems { m with sessions := sessions }
  if m1.items.length = 0 then
    { m1 with message := "No other sessions. Press c to create one.".data }
  else m1

/-- The `cloneReposLoadedMsg` case of `Update` (lines 188-197). -/
def updateCloneReposLoaded (m : Model) (repos : List GoStr) : Model :=
  let m1 := { m with cloneLoading := false, cloneReposAll := repos,
                     cloneRepos := repos, cloneCursor := 0,
                     cloneScrollOffset := 0 }
  if repos.length = 0 then
    { m1 with cloneError := "All repositories are already cloned!".data }
  else m1

/-- The `cloneErrorMsg` case of `Update` (lines 199-203). -/
def updateCloneError (m : Model) (e : GoStr) : Model :=
  { m with cloneLoading := false, cloneCloning := false, cloneError := e }

/-- The `Up` case of `handleNormalMode` (lines 266-270). -/
def keyUp (m : Model) : Model :=
  if m.cursor > 0 then updateScrollOffset { m with cursor := m.cursor - 1 }
  else m

/-- The `Down` case of `handleNormalMode` (lines 272-276). -/
def keyDown (m : Model) : Model :=
  if m.cursor < (m.items.length : Int) - 1 then
    updateScrollOffset { m with cursor := m.cursor + 1 }
  else m

/-- The `KeyRunes` case of `handleNormalMode` (lines 359-362). -/
def addFilterRunes (m : Model) (runes : GoStr) : Model :=
  rebuildItems { m with filter := m.filter ++ runes }

/-- The `KeyBackspace` case of `handleNormalMode` (lines 353-357). -/
def backspaceFilter (m : Model) : Model :=
  if m.filter.length > 0 then
    rebuildItems { m with filter := m.filter.dropLast }
  else m

/-- The filter-clearing branch of `Escape` in Normal mode (lines 257-263). -/
def escClearFilter (m : Model) : Model :=
  if m.filter ≠ [] then rebuildItems { m with filter := [] } else m

/-- `expandCurrent` (lines 824-851).  `loadRes` is the oracle result of the
`tmux.ListWindows` collaborator call (`none` models an error); the call is
made only when the session's window slice is still empty. -/
def expandCurrent (m : Model) (loadRes : Option (List Window)) : Model :=
  if isCursorValid m then
    let item := iget m.items m.cursor.toNat
    if item.isSession then
      let collapsed := m.sessions.map fun s => { s with expanded := false }
      let i := item.sessionIndex
      let session := sget collapsed i
      if session.windows.length = 0 then
        match loadRes with
        | none =>
            { m with sessions := collapsed,
                     message := "Error loading windows: ".data,
                     messageIsError := true }
        | some ws =>
            rebuildItems
              { m with sessions :=
                  collapsed.set i { session with windows := ws, expanded := true } }
      else
        rebuildItems
          { m with sessions := collapsed.set i { session with expanded := true } }
    else m
  else m

/-- `collapseCurrent` (lines 853-877): for a window item the cursor first
moves to the owning session's item, then the session is collapsed. -/
def collapseCurrent (m : Model) : Model :=
  if isCursorValid m then
    let item := iget m.items m.cursor.toNat
    let sessionIdx := item.sessionIndex
    let cur :=
      if item.isSession then m.cursor
      else
        match m.items.findIdx? (fun it => it.isSession && it.sessionIndex == sessionIdx) with
        | some i => (i : Int)
        | none => m.cursor
    rebuildItems
      { m with cursor := cur,
               sessions := m.sessions.set sessionIdx
                 { sget m.sessions sessionIdx with expanded := false } }
  else m

/-- `getTargetName` (lines 1248-1255). -/
def getTargetName (m : Model) (item : Item) : GoStr :=
  if item.isSession then (sget m.sessions item.sessionIndex).name
  else
    let s := sget m.sessions item.sessionIndex
    s.name ++ ':' :: intToStr (wget s.windows item.windowIndex).index

/-- `confirmKill` (lines 919-935): records the target name and enters
ConfirmKill. -/
def confirmKill (m : Model) : Model :=
  if isCursorValid m then
    let item := iget m.items m.cursor.toNat
    let target := getTargetName m item
    { m with killTarget := target,
             message :=
               if item.isSession then
                 "Kill \"".data ++ target ++ "\"?".data
               else
                 "Kill window \"".data ++ target ++ "\"?".data,
             mode := Mode.confirmKill }
  else m

/-- The collaborator call issued by `killCurrent`. -/
inductive KillCmd where
  | session (name : GoStr)
  | window (sessionName : GoStr) (index : Int)
deriving DecidableEq

/-- `killCurrent` (lines 937-969): re-reads `m.items[m.cursor]` at
confirmation time and issues the kill on that item; the oracle `err` is the
collaborator's result.  Returns the new state and the issued command. -/
def killCurrent (m : Model) (err : Option GoStr) : Model × Option KillCmd :=
  if isCursorValid m then
    let item := iget m.items m.cursor.toNat
    let s := sget m.sessions item.sessionIndex
    let cmd :=
      if item.isSession then KillCmd.session s.name
      else KillCmd.window s.name (wget s.windows item.windowIndex).index
    let m1 :=
      match err with
      | none =>
          { m with message :=
              if item.isSession then
                "Killed \"".data ++ s.name ++ "\"".data
              else
                "Killed window ".data ++
                  intToStr (wget s.windows item.windowIndex).index }
      | some e =>
          { m with message := "Error: ".data ++ e, messageIsError := true }
    ({ m1 with mode := Mode.normal, killTarget := [] }, some cmd)
  else (m, none)

/-- The `Cancel` case of `handleConfirmKillMode` (lines 375-379). -/
def cancelKill (m : Model) : Model :=
  { m with mode := Mode.normal, message := [], killTarget := [] }

/-- `handleJump` (lines 789-822), returning the `tmux.SwitchClient` target
the handler issues (`none` when no jump happens).  Reached from
`handleNormalMode` only when no filter is active (lines 334-351). -/
def handleJump (m : Model) (num : Int) : Option GoStr :=
  let viaWindow : Option GoStr :=
    if isCursorValid m then
      let item := iget m.items m.cursor.toNat
      let s := sget m.sessions item.sessionIndex
      if s.expanded then
        match s.windows.find? (fun w => w.index == num) with
        | some w => some (s.name ++ ':' :: intToStr w.index)
        | none => none
      else none
    else none
  match viaWindow with
  | some t => some t
  | none =>
    if 0 ≤ num - 1 ∧ num - 1 < (m.sessions.length : Int) then
      some (sget m.sessions (num - 1).toNat).name
    else none

/-- States reachable by the embedded handlers from a fresh model.  The
`sessions` step carries the `tmux.ListSessions` guarantee that delivered
sessions are collapsed and windowless  (`internal/tmux/tmux.go` lines 69-72). -/
inductive ReachM : Model → Prop
  | new : ReachM New
  | sessions {m : Model} (l : List Session)
      (hl : ∀ s ∈ l, s.expanded = false) :
      ReachM m → ReachM (updateSessionsMsg m l)
  | up {m : Model} : ReachM m → ReachM (keyUp m)
  | down {m : Model} : ReachM m → ReachM (keyDown m)
  | expand {m : Model} (res : Option (List Window)) :
      ReachM m → ReachM (expandCurrent m res)
  | collapse {m : Model} : ReachM m → ReachM (collapseCurrent m)
  | filterRunes {m : Model} (runes : GoStr) :
      ReachM m → ReachM (addFilterRunes m runes)
  | filterBack {m : Model} : ReachM m → ReachM (backspaceFilter m)
  | escFilter {m : Model} : ReachM m → ReachM (escClearFilter m)
  | confirm {m : Model} : ReachM m → ReachM (confirmKill m)
  | killGo {m : Model} (err : Option GoStr) :
      ReachM m → ReachM (killCurrent m err).1
  | killCancel {m : Model} : ReachM m → ReachM (cancelKill m)
  | cloneLoaded {m : Model} (repos : List GoStr) :
      ReachM m → ReachM (updateCloneReposLoaded m repos)
  | cloneFailed {m : Model} (e : GoStr) :
      ReachM m → ReachM (updateCloneError m e)

/-- Number of sessions whose expansion flag is set. -/
def countExpanded (l : List Session) : Nat :=
  (l.filter fun s => s.expanded).length

/-- Two collapsed sessions, as delivered by a load. -/
def mTwo : Model :=
  updateSessionsMsg New [⟨"alpha".data, false, []⟩, ⟨"beta".data, false, []⟩]

/-- Cursor moved to "beta", then "beta" expanded (window load succeeds). -/
def mExpB : Model := expandCurrent (keyDown mTwo) (some [⟨1, "w".data⟩])

/-- Afterwards the cursor moves back to "alpha" and "alpha" is expanded. -/
def mExpA : Model := expandCurrent (keyUp mExpB) (some [⟨1, "x".data⟩])

/-- Three collapsed sessions "apple", "banana", "cranberry", as loaded. -/
def mFruit : Model :=
  updateSessionsMsg New
    [⟨"apple".data, false, []⟩, ⟨"banana".data, false, []⟩,
     ⟨"cranberry".data, false, []⟩]

/-- Cursor moved to "banana", then the filter edited to "a" (all three
sessions still match, cursor still on "banana"). -/
def mFruitA : Model := addFilterRunes (keyDown mFruit) "a".data

/-- One more filter keystroke: filter "an" drops "apple" and rebuilds. -/
def mFruitAN : Model := addFilterRunes mFruitA "n".data

/-- Two collapsed sessions "A" and "B", as loaded. -/
def mKillAB : Model :=
  updateSessionsMsg New [⟨"A".data, false, []⟩, ⟨"B".data, false, []⟩]

/-- Cursor moved to "B", then kill invoked: ConfirmKill with target "B". -/
def mKillConfirm : Model := confirmKill (keyDown mKillAB)

/-- A sessions reload arrives while ConfirmKill is pending: "C" now sits
in front, so index 1 holds "A". -/
def mKillReloaded : Model :=
  updateSessionsMsg mKillConfirm
    [⟨"C".data, false, []⟩, ⟨"A".data, false, []⟩, ⟨"B".data, false, []⟩]

/-- A state for the jump fall-through: cursor on the expanded session
"alpha" whose only window has index 2. -/
def mJump : Model :=
  { New with
    sessions := [⟨"alpha".data, true, [⟨2, "w".data⟩]⟩, ⟨"beta".data, false, []⟩],
    items := [⟨true, 0, 0⟩, ⟨false, 0, 0⟩, ⟨true, 1, 0⟩] }

end model

theorem startsWith_iff (p s : GoStr) :
    startsWith s p = true ↔ ∃ r, s = p ++ r := by
  induction p generalizing s with
  | nil =>
    simp [startsWith]
  | cons p ps ih =>
    cases s with
    | nil => simp [startsWith]
    | cons c t =>
      simp only [startsWith, Bool.and_eq_true, beq_iff_eq, ih, List.cons_append,
        List.cons.injEq]
      constructor
      · rintro ⟨hc, r, hr⟩
        exact ⟨r, hc, hr⟩
      · rintro ⟨r, hc, hr⟩
        exact ⟨hc, r, hr⟩

theorem hasSubstr_iff (s sub : GoStr) :
    hasSubstr s sub = true ↔ ∃ l r, s = l ++ sub ++ r := by
  induction s with
  | nil =>
    simp only [hasSubstr, startsWith_iff]
    constructor
    · rintro ⟨r, hr⟩
      exact ⟨[], r, by simpa using hr⟩
    · rintro ⟨l, r, hr⟩
      cases l with
      | nil => exact ⟨r, by simpa using hr⟩
      | cons a t => simp at hr
  | cons c t ih =>
    simp only [hasSubstr, Bool.or_eq_true, startsWith_iff, ih]
    constructor
    · rintro (⟨r, hr⟩ | ⟨l, r, hr⟩)
      · exact ⟨[], r, by simpa using hr⟩
      · exact ⟨c :: l, r, by simp [hr]⟩
    · rintro ⟨l, r, hr⟩
      cases l with
      | nil => exact Or.inl ⟨r, by simpa using hr⟩
      | cons a l' =>
        simp only [List.cons_append, List.cons.injEq] at hr
        exact Or.inr ⟨l', r, hr.2⟩

theorem hasSubstr_nil_right (s : GoStr) : hasSubstr s [] = true := by
  cases s <;> simp [hasSubstr, startsWith]

theorem goToLower_nil : goToLower [] = [] := rfl

namespace ui

namespace ScrollList

variable {α : Type}

theorem clampCursorVal_spec (c n : Int) (hn : 0 ≤ n) :
    (n = 0 → clampCursorVal c n = 0) ∧
    (0 < n → 0 ≤ clampCursorVal c n ∧ clampCursorVal c n < n) := by
  simp only [clampCursorVal]
  split_ifs <;> omega

theorem updateScrollOffsetVal_spec (c off h : Int) (hc : 0 ≤ c) (hh : 0 < h) :
    updateScrollOffsetVal c off h ≤ c ∧
    c < updateScrollOffsetVal c off h + h ∧
    0 ≤ updateScrollOffsetVal c off h := by
  simp only [updateScrollOffsetVal]
  split_ifs <;> omega

/-- The update rule of `updateScrollOffset`, branch by branch, for states
with a non-negative offset and a positive height. -/
theorem updateScrollOffsetVal_branches (c off h : Int)
    (hc : 0 ≤ c) (hoff : 0 ≤ off) (hh : 0 < h) :
    (c < off → updateScrollOffsetVal c off h = c) ∧
    (c ≥ off + h → updateScrollOffsetVal c off h = c - h + 1) ∧
    (off ≤ c → c < off + h → updateScrollOffsetVal c off h = off) := by
  simp only [updateScrollOffsetVal]
  split_ifs <;> omega

/-- `clampCursor` establishes the cursor invariant from any state. -/
theorem clampCursor_cursorInv (s : ScrollList α) : CursorInv (clampCursor s) := by
  have h := clampCursorVal_spec s.cursor s.filtered.length (by positivity)
  constructor
  · intro hf
    have hf' : s.filtered = [] := hf
    have : (s.filtered.length : Int) = 0 := by simp [hf']
    exact h.1 this
  · intro hf
    have hf' : s.filtered ≠ [] := hf
    have : 0 < (s.filtered.length : Int) := by
      have := List.length_pos.mpr hf'
      exact_mod_cast this
    exact h.2 this

/-- `updateScrollOffset` establishes the visibility invariant from any prior
offset, given a non-negative cursor and a positive height. -/
theorem updateScrollOffset_windowInv (s : ScrollList α)
    (hc : 0 ≤ s.cursor) (hh : 0 < s.height) :
    WindowInv (updateScrollOffset s) := by
  exact updateScrollOffsetVal_spec s.cursor s.scrollOffset s.height hc hh

end ScrollList

theorem cursorInv_nonneg {α : Type} {s : ScrollList α} (h : CursorInv s) :
    0 ≤ s.cursor := by
  rcases h with ⟨h0, h1⟩
  by_cases hf : s.filtered = []
  · simp [h0 hf]
  · exact (h1 hf).1

/-- Any state ending in `clampCursor` followed by `updateScrollOffset`
satisfies the maintained invariants, provided its height is positive. -/
theorem fullInv_after {α : Type} (t : ScrollList α) (ht : 0 < t.height) :
    FullInv (ScrollList.updateScrollOffset (ScrollList.clampCursor t)) := by
  have hc := ScrollList.clampCursor_cursorInv t
  refine ⟨ht, hc, ?_⟩
  exact ScrollList.updateScrollOffset_windowInv _ (cursorInv_nonneg hc) ht

/-- Every reachable `ScrollList` state satisfies height positivity, the
cursor invariant and the visibility invariant. -/
theorem reach_fullInv {α : Type} {fn : α → GoStr → Bool} {s : ScrollList α}
    (h : Reach fn s) : FullInv s := by
  induction h with
  | new =>
    refine ⟨by norm_num [NewScrollList], ⟨fun _ => rfl, fun h => absurd rfl h⟩, ?_⟩
    refine ⟨le_refl _, ?_, le_refl _⟩
    norm_num [NewScrollList]
  | setItems l h ih =>
    exact fullInv_after _ ih.1
  | setFilter f h ih =>
    exact fullInv_after _ ih.1
  | setCursor p h ih =>
    exact fullInv_after _ ih.1
  | moveCursor d h ih =>
    exact fullInv_after _ ih.1
  | reset h ih =>
    exact fullInv_after _ ih.1
  | setHeight hgt h ih =>
    rcases ih with ⟨hh, hcur, hwin⟩
    unfold ScrollList.SetHeight
    by_cases hpos : hgt > 0
    · simp only [hpos, if_pos]
      refine ⟨hpos, hcur, ?_⟩
      exact ScrollList.updateScrollOffset_windowInv _ (cursorInv_nonneg hcur) hpos
    · simp only [hpos, if_neg, not_false_iff]
      refine ⟨hh, hcur, ?_⟩
      exact ScrollList.updateScrollOffset_windowInv _ (cursorInv_nonneg hcur) hh

end ui

theorem clampCursorVal_nonneg (c n : Int) (hn : 0 ≤ n) :
    0 ≤ ui.ScrollList.clampCursorVal c n := by
  simp only [ui.ScrollList.clampCursorVal]
  split_ifs <;> omega

theorem clampCursorVal_of_inbounds (c n : Int) (h0 : 0 ≤ c) (h1 : c < n) :
    ui.ScrollList.clampCursorVal c n = c := by
  simp only [ui.ScrollList.clampCursorVal]
  split_ifs <;> omega

theorem clampCursorVal_of_ge (c n : Int) (hn : 0 < n) (h : n ≤ c) :
    ui.ScrollList.clampCursorVal c n = n - 1 := by
  simp only [ui.ScrollList.clampCursorVal]
  split_ifs <;> omega

namespace model

theorem updateScrollOffset_sessions (m : Model) :
    (updateScrollOffset m).sessions = m.sessions := rfl

theorem rebuildItems_sessions (m : Model) :
    (rebuildItems m).sessions = m.sessions := rfl

theorem updateSessionsMsg_sessions (m : Model) (l : List Session) :
    (updateSessionsMsg m l).sessions = l := by
  simp only [updateSessionsMsg]
  split <;> rfl

theorem keyUp_sessions (m : Model) : (keyUp m).sessions = m.sessions := by
  unfold keyUp
  split <;> rfl

theorem keyDown_sessions (m : Model) : (keyDown m).sessions = m.sessions := by
  unfold keyDown
  split <;> rfl

theorem addFilterRunes_sessions (m : Model) (rs : GoStr) :
    (addFilterRunes m rs).sessions = m.sessions := rfl

theorem backspaceFilter_sessions (m : Model) :
    (backspaceFilter m).sessions = m.sessions := by
  unfold backspaceFilter
  split <;> rfl

theorem escClearFilter_sessions (m : Model) :
    (escClearFilter m).sessions = m.sessions := by
  unfold escClearFilter
  split <;> rfl

theorem confirmKill_sessions (m : Model) :
    (confirmKill m).sessions = m.sessions := by
  unfold confirmKill
  split <;> rfl

theorem killCurrent_sessions (m : Model) (err : Option GoStr) :
    (killCurrent m err).1.sessions = m.sessions := by
  unfold killCurrent
  split
  · cases err <;> rfl
  · rfl

theorem cancelKill_sessions (m : Model) :
    (cancelKill m).sessions = m.sessions := rfl

theorem updateCloneReposLoaded_sessions (m : Model) (repos : List GoStr) :
    (updateCloneReposLoaded m repos).sessions = m.sessions := by
  simp only [updateCloneReposLoaded]
  split <;> rfl

theorem updateCloneError_sessions (m : Model) (e : GoStr) :
    (updateCloneError m e).sessions = m.sessions := rfl

theorem countExpanded_cons (a : Session) (t : List Session) :
    countExpanded (a :: t) =
      if a.expanded then countExpanded t + 1 else countExpanded t := by
  unfold countExpanded
  rw [List.filter_cons]
  split <;> simp

theorem countExpanded_eq_zero {l : List Session}
    (h : ∀ s ∈ l, s.expanded = false) : countExpanded l = 0 := by
  induction l with
  | nil => rfl
  | cons a t ih =>
    rw [countExpanded_cons, if_neg (by simp [h a (by simp)])]
    exact ih fun s hs => h s (by simp [hs])

theorem countExpanded_map_collapse (l : List Session) :
    countExpanded (l.map fun s => { s with expanded := false }) = 0 := by
  apply countExpanded_eq_zero
  intro s hs
  rcases List.mem_map.mp hs with ⟨a, _, rfl⟩
  rfl

theorem countExpanded_set_le_one {l : List Session}
    (h : countExpanded l = 0) (i : Nat) (x : Session) :
    countExpanded (l.set i x) ≤ 1 := by
  induction l generalizing i with
  | nil => simp [List.set, countExpanded]
  | cons a t ih =>
    rw [countExpanded_cons] at h
    have ha : a.expanded = false := by
      by_contra hc
      rw [if_pos (by simpa using hc)] at h
      omega
    have ht : countExpanded t = 0 := by
      rwa [if_neg (by simp [ha])] at h
    cases i with
    | zero =>
      rw [List.set_cons_zero, countExpanded_cons]
      split <;> omega
    | succ n =>
      rw [List.set_cons_succ, countExpanded_cons, if_neg (by simp [ha])]
      exact ih ht n

theorem countExpanded_set_collapsed_le (l : List Session) (i : Nat)
    (x : Session) (hx : x.expanded = false) :
    countExpanded (l.set i x) ≤ countExpanded l := by
  induction l generalizing i with
  | nil => simp [List.set]
  | cons a t ih =>
    cases i with
    | zero =>
      rw [List.set_cons_zero, countExpanded_cons, countExpanded_cons,
        if_neg (by simp [hx])]
      split <;> omega
    | succ n =>
      rw [List.set_cons_succ, countExpanded_cons, countExpanded_cons]
      have := ih n
      split <;> omega

/-- `expandCurrent` keeps at most one session expanded: it collapses every
session first and then raises at most one flag. -/
theorem expandCurrent_count (m : Model) (res : Option (List Window))
    (hm : countExpanded m.sessions ≤ 1) :
    countExpanded (expandCurrent m res).sessions ≤ 1 := by
  simp only [expandCurrent]
  split
  · split
    · split
      · cases res with
        | none =>
          simp only []
          rw [countExpanded_map_collapse m.sessions]
          omega
        | some ws =>
          rw [rebuildItems_sessions]
          exact countExpanded_set_le_one (countExpanded_map_collapse _) _ _
      · rw [rebuildItems_sessions]
        exact countExpanded_set_le_one (countExpanded_map_collapse _) _ _
    · exact hm
  · exact hm

/-- `collapseCurrent` never raises an expansion flag. -/
theorem collapseCurrent_count (m : Model)
    (hm : countExpanded m.sessions ≤ 1) :
    countExpanded (collapseCurrent m).sessions ≤ 1 := by
  simp only [collapseCurrent]
  split
  · rw [rebuildItems_sessions]
    exact le_trans (countExpanded_set_collapsed_le _ _ _ rfl) hm
  · exact hm

end model

/-- Claim C1 (amended): after every call of `SetItems`, `SetFilter`,
`MoveCursor`, `SetCursor`, `SetHeight` and `Reset`, starting from a freshly
constructed list, the cursor invariant (`0 <= cursor < len(filtered)` when
non-empty, else `cursor = 0`) and the visibility invariant
(`scrollOffset <= cursor < scrollOffset + height`, `scrollOffset >= 0`)
hold.  The fourth §3 bound `scrollOffset <= max(0, len(filtered) - height)`
is not maintained by the code (see the counterexample). -/
theorem C1_scrolllist_invariants {α : Type} (fn : α → GoStr → Bool)
    (s : ui.ScrollList α) (h : ui.Reach fn s) :
    ui.CursorInv s ∧ ui.WindowInv s :=
  ⟨(ui.reach_fullInv h).2.1, (ui.reach_fullInv h).2.2⟩

/-- Witness for C1: a concrete reachable state satisfies the invariants. -/
theorem C1_scrolllist_invariants_witness :
    ui.CursorInv twelveFive ∧ ui.WindowInv twelveFive :=
  C1_scrolllist_invariants natFilterFn twelveFive
    (ui.Reach.setItems _ (ui.Reach.setHeight _ ui.Reach.new))

/-- Counterexample for C1 as stated: the sequence
`SetHeight 5; SetItems (12 items); SetCursor 11; SetItems (8 items)` reaches
a state with `scrollOffset = 7 > max(0, 8 - 5) = 3`, violating the fourth
§3 invariant. -/
theorem C1_scrolllist_offset_bound_violation :
    ui.Reach natFilterFn shrunkAfterScroll ∧
    shrunkAfterScroll.scrollOffset = 7 ∧
    shrunkAfterScroll.filtered.length = 8 ∧
    shrunkAfterScroll.height = 5 ∧
    ¬ ui.OffsetUpperInv shrunkAfterScroll := by
  refine ⟨?_, ?_, ?_, ?_, ?_⟩
  · exact ui.Reach.setItems _ (ui.Reach.setCursor _
      (ui.Reach.setItems _ (ui.Reach.setHeight _ ui.Reach.new)))
  · decide
  · decide
  · decide
  · unfold ui.OffsetUpperInv
    decide

/-- Claim C7: `MoveCursor(delta)` clamps the cursor into
`[0, len(filtered)-1]` and restores visibility: if the new cursor lies above
the window the offset becomes the cursor, if below it becomes
`cursor - height + 1`, and it never goes negative; in the §8 scenario
(12 items, height 5) moving to index 11 yields offset 7 and moving back to
0 yields offset 0. -/
theorem C7_moveCursor_spec :
    (∀ (α : Type) (s : ui.ScrollList α) (d : Int),
      0 ≤ s.scrollOffset → 0 < s.height →
      (s.filtered ≠ [] →
        0 ≤ (s.MoveCursor d).cursor ∧
        (s.MoveCursor d).cursor < (s.filtered.length : Int)) ∧
      ((s.MoveCursor d).cursor < s.scrollOffset →
        (s.MoveCursor d).scrollOffset = (s.MoveCursor d).cursor) ∧
      ((s.MoveCursor d).cursor ≥ s.scrollOffset + s.height →
        (s.MoveCursor d).scrollOffset = (s.MoveCursor d).cursor - s.height + 1) ∧
      0 ≤ (s.MoveCursor d).scrollOffset) ∧
    (twelveFive.MoveCursor 11).cursor = 11 ∧
    (twelveFive.MoveCursor 11).scrollOffset = 7 ∧
    ((twelveFive.MoveCursor 11).MoveCursor (-11)).cursor = 0 ∧
    ((twelveFive.MoveCursor 11).MoveCursor (-11)).scrollOffset = 0 := by
  refine ⟨?_, by decide, by decide, by decide, by decide⟩
  intro α s d hoff hh
  have hlen : (0 : Int) ≤ s.filtered.length := by positivity
  have hcur : (s.MoveCursor d).cursor =
      ui.ScrollList.clampCursorVal (s.cursor + d) s.filtered.length := rfl
  have hofs : (s.MoveCursor d).scrollOffset =
      ui.ScrollList.updateScrollOffsetVal ((s.MoveCursor d).cursor)
        s.scrollOffset s.height := rfl
  have hc0 : 0 ≤ (s.MoveCursor d).cursor := by
    rw [hcur]; exact clampCursorVal_nonneg _ _ hlen
  have hbr := ui.ScrollList.updateScrollOffsetVal_branches
    ((s.MoveCursor d).cursor) s.scrollOffset s.height hc0 hoff hh
  have hsp := ui.ScrollList.updateScrollOffsetVal_spec
    ((s.MoveCursor d).cursor) s.scrollOffset s.height hc0 hh
  refine ⟨?_, ?_, ?_, ?_⟩
  · intro hf
    have : 0 < (s.filtered.length : Int) := by
      have := List.length_pos.mpr hf
      exact_mod_cast this
    rw [hcur]
    exact (ui.ScrollList.clampCursorVal_spec (s.cursor + d) s.filtered.length
      hlen).2 this
  · intro h1
    rw [hofs]
    exact hbr.1 h1
  · intro h2
    rw [hofs]
    exact hbr.2.1 h2
  · rw [hofs]
    exact hsp.2.2

/-- Witness for C7: the universal part applied to a concrete state. -/
theorem C7_moveCursor_spec_witness :
    0 ≤ (twelveFive.MoveCursor 3).cursor ∧
    (twelveFive.MoveCursor 3).cursor < (twelveFive.filtered.length : Int) :=
  (C7_moveCursor_spec.1 Nat twelveFive 3 (by decide) (by decide)).1 (by decide)

/-- Claim C9: `SetHeight` ignores non-positive heights, the constructor
defaults the height to 10, and therefore every reachable state has a
strictly positive height. -/
theorem C9_height_positive :
    (∀ (α : Type) (s : ui.ScrollList α) (n : Int), n ≤ 0 →
      (s.SetHeight n).height = s.height) ∧
    (∀ (α : Type) (fn : α → GoStr → Bool), (ui.NewScrollList fn).height = 10) ∧
    (∀ (α : Type) (fn : α → GoStr → Bool) (s : ui.ScrollList α),
      ui.Reach fn s → 0 < s.height) := by
  refine ⟨?_, fun _ _ => rfl, fun _ _ _ h => (ui.reach_fullInv h).1⟩
  intro α s n hn
  unfold ui.ScrollList.SetHeight
  rw [if_neg (by omega)]
  rfl

/-- Witness for C9: `SetHeight (-3)` on a fresh list keeps height 10. -/
theorem C9_height_positive_witness :
    ((ui.NewScrollList natFilterFn).SetHeight (-3)).height =
      (ui.NewScrollList natFilterFn).height :=
  C9_height_positive.1 Nat (ui.NewScrollList natFilterFn) (-3) (by decide)

/-- Counterexample for C6 as stated: `fuzzyMatch` does not case-fold its
needle.  On the input pair ("foo", "FOO") case-folding both operands gives a
substring match (`specMatches` is true), but the code returns false. -/
theorem C6_fuzzyMatch_counterexample :
    fuzzyMatch "foo".data "FOO".data = false ∧
    specMatches "foo".data "FOO".data = true := by
  exact ⟨by decide, by decide⟩

/-- Claim C6 (amended): `fuzzyMatch` is a total function that lowercases the
haystack only and returns true iff the needle, as given, is a contiguous
substring of the lowered haystack; it agrees with the §4.1 both-operand
contract whenever the needle is already lowercase (the callers always
lowercase the needle first); the empty needle matches everything, a
non-empty needle never matches the empty haystack, and
`fuzzyMatch "Foo-Bar" "foo"` is true. -/
theorem C6_fuzzyMatch_amended :
    (∀ h n : GoStr, fuzzyMatch h n = true ↔ ∃ l r, goToLower h = l ++ n ++ r) ∧
    (∀ h n : GoStr, goToLower n = n → fuzzyMatch h n = specMatches h n) ∧
    (∀ h : GoStr, fuzzyMatch h [] = true) ∧
    (∀ n : GoStr, n ≠ [] → fuzzyMatch [] n = false) ∧
    fuzzyMatch "Foo-Bar".data "foo".data = true := by
  refine ⟨?_, ?_, ?_, ?_, by decide⟩
  · intro h n
    exact hasSubstr_iff (goToLower h) n
  · intro h n hn
    unfold fuzzyMatch specMatches
    rw [hn]
  · intro h
    exact hasSubstr_nil_right (goToLower h)
  · intro n hn
    cases n with
    | nil => exact absurd rfl hn
    | cons c t => rfl

/-- Witness for C6: concrete instances of the conditional parts. -/
theorem C6_fuzzyMatch_amended_witness :
    fuzzyMatch "Ab".data "b".data = specMatches "Ab".data "b".data ∧
    fuzzyMatch [] "x".data = false :=
  ⟨C6_fuzzyMatch_amended.2.1 "Ab".data "b".data (by decide),
   C6_fuzzyMatch_amended.2.2.2.1 "x".data (by decide)⟩

/-- Claim C8: the session-name sanitizer never leaves a `/`, `.`, `:` or
space in its output (each is replaced by `-`), and
`sanitize "owner/repo.name:tag" = "owner-repo-name-tag"`. -/
theorem C8_sanitize_spec :
    (∀ s : GoStr, ∀ c ∈ sanitizeSessionName s,
      c ≠ '/' ∧ c ≠ '.' ∧ c ≠ ':' ∧ c ≠ ' ') ∧
    sanitizeSessionName "owner/repo.name:tag".data = "owner-repo-name-tag".data := by
  refine ⟨?_, by decide⟩
  intro s c hc
  simp only [sanitizeSessionName, List.mem_map] at hc
  obtain ⟨a, _, ha⟩ := hc
  by_cases hb : (a == '/' || a == '.' || a == ':' || a == ' ') = true
  · rw [if_pos hb] at ha
    subst ha
    decide
  · rw [if_neg hb] at ha
    subst ha
    simp only [Bool.or_eq_true, beq_iff_eq, not_or] at hb
    exact ⟨hb.1.1.1, hb.1.1.2, hb.1.2, hb.2⟩

/-- Witness for C8: the replacement character itself is none of the four
reserved characters. -/
theorem C8_sanitize_spec_witness :
    '-' ≠ '/' ∧ '-' ≠ '.' ∧ '-' ≠ ':' ∧ '-' ≠ ' ' :=
  C8_sanitize_spec.1 "a/b".data '-' (by decide)

/-- Claim C5: in every reachable model state at most one session is
expanded; `expandCurrent` collapses all sessions before expanding the one
under the cursor, so expanding "alpha" after "beta" was expanded leaves
"beta" collapsed (concrete scenario in the last conjuncts). -/
theorem C5_single_expansion :
    (∀ m : model.Model, model.ReachM m → model.countExpanded m.sessions ≤ 1) ∧
    (model.sget model.mExpB.sessions 1).expanded = true ∧
    (model.sget model.mExpA.sessions 0).expanded = true ∧
    (model.sget model.mExpA.sessions 1).expanded = false ∧
    model.countExpanded model.mExpA.sessions ≤ 1 := by
  refine ⟨?_, by decide, by decide, by decide, by decide⟩
  intro m h
  induction h with
  | new => decide
  | sessions l hl _ _ =>
    rw [model.updateSessionsMsg_sessions, model.countExpanded_eq_zero hl]
    omega
  | up _ ih => rw [model.keyUp_sessions]; exact ih
  | down _ ih => rw [model.keyDown_sessions]; exact ih
  | expand res _ ih => exact model.expandCurrent_count _ res ih
  | collapse _ ih => exact model.collapseCurrent_count _ ih
  | filterRunes rs _ ih => rw [model.addFilterRunes_sessions]; exact ih
  | filterBack _ ih => rw [model.backspaceFilter_sessions]; exact ih
  | escFilter _ ih => rw [model.escClearFilter_sessions]; exact ih
  | confirm _ ih => rw [model.confirmKill_sessions]; exact ih
  | killGo err _ ih => rw [model.killCurrent_sessions]; exact ih
  | killCancel _ ih => rw [model.cancelKill_sessions]; exact ih
  | cloneLoaded repos _ ih =>
    rw [model.updateCloneReposLoaded_sessions]; exact ih
  | cloneFailed e _ ih => rw [model.updateCloneError_sessions]; exact ih

/-- Witness for C5 at the freshly constructed model. -/
theorem C5_single_expansion_witness :
    model.countExpanded model.New.sessions ≤ 1 :=
  C5_single_expansion.1 model.New model.ReachM.new

/-- Claim C2 (amended): a rebuild of the flattened list keeps the cursor's
numeric index when that index is still within the new list, and otherwise
clamps it to the nearest valid index (`len - 1`, or 0 for an empty list);
the previously selected entity's identity is not tracked, so the cursor can
land on a different surviving entity (see the counterexample). -/
theorem C2_rebuild_clamps_by_index :
    (∀ m : model.Model, 0 ≤ m.cursor →
      m.cursor < ((model.buildItems m.sessions m.filter).length : Int) →
      (model.rebuildItems m).cursor = m.cursor) ∧
    (∀ m : model.Model,
      0 < (model.buildItems m.sessions m.filter).length →
      ((model.buildItems m.sessions m.filter).length : Int) ≤ m.cursor →
      (model.rebuildItems m).cursor =
        ((model.buildItems m.sessions m.filter).length : Int) - 1) ∧
    (∀ m : model.Model, (model.rebuildItems m).items ≠ [] →
      0 ≤ (model.rebuildItems m).cursor ∧
      (model.rebuildItems m).cursor < (((model.rebuildItems m).items.length : Int))) ∧
    (∀ m : model.Model, (model.rebuildItems m).items = [] →
      (model.rebuildItems m).cursor = 0) := by
  have hcur : ∀ m : model.Model, (model.rebuildItems m).cursor =
      ui.ScrollList.clampCursorVal m.cursor
        (model.buildItems m.sessions m.filter).length := fun _ => rfl
  have hit : ∀ m : model.Model, (model.rebuildItems m).items =
      model.buildItems m.sessions m.filter := fun _ => rfl
  refine ⟨?_, ?_, ?_, ?_⟩
  · intro m h0 h1
    rw [hcur]
    exact clampCursorVal_of_inbounds _ _ h0 h1
  · intro m hpos hge
    rw [hcur]
    exact clampCursorVal_of_ge _ _ (by exact_mod_cast hpos) hge
  · intro m hne
    rw [hit] at hne
    have hpos : 0 < ((model.buildItems m.sessions m.filter).length : Int) := by
      have := List.length_pos.mpr hne
      exact_mod_cast this
    rw [hcur, hit]
    exact (ui.ScrollList.clampCursorVal_spec m.cursor _ (by positivity)).2 hpos
  · intro m he
    rw [hit] at he
    rw [hcur]
    exact (ui.ScrollList.clampCursorVal_spec m.cursor _ (by positivity)).1
      (by simp [he])

/-- Witness for C2 at a concrete state whose cursor index survives. -/
theorem C2_rebuild_clamps_by_index_witness :
    (model.rebuildItems model.mFruit).cursor = model.mFruit.cursor :=
  C2_rebuild_clamps_by_index.1 model.mFruit (by decide) (by decide)

/-- Counterexample for C2 as stated: before the filter keystroke "n" the
cursor points at the session "banana"; after the rebuild "banana" is still
in the flattened list, but the cursor (kept at numeric index 1) now points
at "cranberry". -/
theorem C2_rebuild_identity_counterexample :
    (model.sget model.mFruitA.sessions
      (model.iget model.mFruitA.items model.mFruitA.cursor.toNat).sessionIndex).name
        = "banana".data ∧
    model.mFruitAN =
      model.rebuildItems { model.mFruitA with filter := "an".data } ∧
    (model.mFruitAN.items.any fun it =>
      it.isSession &&
        ((model.sget model.mFruitAN.sessions it.sessionIndex).name
          == "banana".data)) = true ∧
    (model.sget model.mFruitAN.sessions
      (model.iget model.mFruitAN.items model.mFruitAN.cursor.toNat).sessionIndex).name
        = "cranberry".data ∧
    "cranberry".data ≠ "banana".data := by
  exact ⟨by decide, by decide, by decide, by decide, by decide⟩

/-- Claim C3: the code contradicts the recorded PendingAction.  A reload
rebuilds the item list while ConfirmKill is pending with `killTarget = "B"`;
the confirming keystroke then kills the item under the cursor index at
confirmation time, issuing `KillSession("A")` although the user confirmed
the prompt `Kill "B"?`. -/
theorem C3_kill_retargets_cursor_bug :
    model.mKillConfirm.killTarget = "B".data ∧
    model.mKillConfirm.mode = model.Mode.confirmKill ∧
    model.mKillReloaded.killTarget = "B".data ∧
    model.mKillReloaded.mode = model.Mode.confirmKill ∧
    (model.killCurrent model.mKillReloaded none).2 =
      some (model.KillCmd.session "A".data) ∧
    "A".data ≠ "B".data := by
  exact ⟨by decide, by decide, by decide, by decide, by decide, by decide⟩

/-- Claim C4 (amended): the `sessionsMsg` handler leaves every clone-mode
field (and the mode) unchanged in any state, in particular while CloneRepo
is active; but the clone result handlers are not gated on the mode, so a
stale `cloneReposLoadedMsg` or `cloneErrorMsg` still overwrites clone state
after the mode has changed away from CloneRepo. -/
theorem C4_stale_results_amended :
    (∀ (m : model.Model) (l : List model.Session),
      (model.updateSessionsMsg m l).mode = m.mode ∧
      (model.updateSessionsMsg m l).cloneRepos = m.cloneRepos ∧
      (model.updateSessionsMsg m l).cloneReposAll = m.cloneReposAll ∧
      (model.updateSessionsMsg m l).cloneFilter = m.cloneFilter ∧
      (model.updateSessionsMsg m l).cloneCursor = m.cloneCursor ∧
      (model.updateSessionsMsg m l).cloneScrollOffset = m.cloneScrollOffset ∧
      (model.updateSessionsMsg m l).cloneLoading = m.cloneLoading ∧
      (model.updateSessionsMsg m l).cloneError = m.cloneError ∧
      (model.updateSessionsMsg m l).cloneCloning = m.cloneCloning ∧
      (model.updateSessionsMsg m l).cloneSuccess = m.cloneSuccess ∧
      (model.updateSessionsMsg m l).cloneSuccessPath = m.cloneSuccessPath ∧
      (model.updateSessionsMsg m l).cloneSuccessSession = m.cloneSuccessSession) ∧
    (∀ (m : model.Model) (repos : List GoStr), m.mode ≠ model.Mode.cloneRepo →
      (model.updateCloneReposLoaded m repos).cloneReposAll = repos ∧
      (model.updateCloneReposLoaded m repos).cloneRepos = repos ∧
      (model.updateCloneReposLoaded m repos).cloneLoading = false) ∧
    (∀ (m : model.Model) (e : GoStr), m.mode ≠ model.Mode.cloneRepo →
      (model.updateCloneError m e).cloneError = e ∧
      (model.updateCloneError m e).cloneCloning = false) := by
  refine ⟨?_, ?_, ?_⟩
  · intro m l
    simp only [model.updateSessionsMsg]
    split <;>
      exact ⟨rfl, rfl, rfl, rfl, rfl, rfl, rfl, rfl, rfl, rfl, rfl, rfl⟩
  · intro m repos _
    simp only [model.updateCloneReposLoaded]
    split <;> exact ⟨rfl, rfl, rfl⟩
  · intro m e _
    exact ⟨rfl, rfl⟩

/-- Witness for C4: the clone-result part applied in Normal mode. -/
theorem C4_stale_results_amended_witness :
    (model.updateCloneReposLoaded model.New ["x".data]).cloneReposAll =
      ["x".data] ∧
    (model.updateCloneReposLoaded model.New ["x".data]).cloneRepos =
      ["x".data] ∧
    (model.updateCloneReposLoaded model.New ["x".data]).cloneLoading = false :=
  C4_stale_results_amended.2.1 model.New ["x".data] (by decide)

/-- Counterexample for C4 as stated: a `cloneReposLoadedMsg` arriving in
Normal mode (its issuing mode CloneRepo is not active) changes the state. -/
theorem C4_stale_result_mutates_state :
    model.New.mode = model.Mode.normal ∧
    model.New.mode ≠ model.Mode.cloneRepo ∧
    model.New.cloneReposAll = [] ∧
    (model.updateCloneReposLoaded model.New ["repo".data]).cloneReposAll =
      ["repo".data] ∧
    model.updateCloneReposLoaded model.New ["repo".data] ≠ model.New := by
  exact ⟨by decide, by decide, by decide, by decide, by decide⟩

/-- Claim C10: in Normal mode with no filter, a digit `num` pressed while
the cursor's session is expanded but has no window of index `num` falls
through to the positional session jump and emits a switch to session
`num - 1` (when that many sessions exist). -/
theorem C10_jump_falls_through :
    ∀ (m : model.Model) (num : Int),
      m.mode = model.Mode.normal →
      m.filter = [] →
      model.isCursorValid m = true →
      (model.sget m.sessions
        (model.iget m.items m.cursor.toNat).sessionIndex).expanded = true →
      (∀ w ∈ (model.sget m.sessions
        (model.iget m.items m.cursor.toNat).sessionIndex).windows,
          w.index ≠ num) →
      1 ≤ num →
      num - 1 < (m.sessions.length : Int) →
      model.handleJump m num =
        some (model.sget m.sessions (num - 1).toNat).name := by
  intro m num hmode hfilter hvalid hexp hw h1 h2
  have hfind : (model.sget m.sessions
      (model.iget m.items m.cursor.toNat).sessionIndex).windows.find?
        (fun w => w.index == num) = none := by
    rw [List.find?_eq_none]
    intro w hwmem
    simpa using hw w hwmem
  simp only [model.handleJump, hvalid, hexp, hfind, if_true]
  rw [if_pos ⟨by omega, h2⟩]

/-- Witness for C10: with "alpha" expanded holding only window index 2,
pressing 1 switches to the first session. -/
theorem C10_jump_falls_through_witness :
    model.handleJump model.mJump 1 =
      some (model.sget model.mJump.sessions 0).name :=
  C10_jump_falls_through model.mJump 1 (by decide) (by decide) (by decide)
    (by decide) (by decide) (by decide) (by decide)
